import Mathlib

/-!
# sql-to-go: the table-to-file pipeline of `main`

A shallow embedding of `src/main.go`.  The only function of that file is `main`;
it is embedded stage by stage (flag check, connection, table listing, output
directory, per-table loop, combined file, summary).  Everything `main` calls
that lives outside `main.go` (the database, the file system, the working
directory, `strings.ToLower`, and the package functions `getTableColumns`,
`generateStruct`, `generateGoFile`, `generateCombinedFile`, `writeToFile`)
is a field of `Env`, so every theorem holds for all behaviours of those.
`path/filepath` is modelled for Unix (`Separator = '/'`).
-/

namespace SqlToGo

/-! ## Data model -/

/-- One database column (`type ColumnInfo struct`, main.go 14-19). -/
structure ColumnInfo where
  Name : String
  GoType : String
  IsNullable : Bool
  IsPrimaryKey : Bool
deriving DecidableEq, Repr

/-- The command-line flags read at main.go 22-28. -/
structure Flags where
  dbUrl : String
  outputDir : String
  packageName : String
  outputMode : String
  help : Bool
deriving DecidableEq, Repr

/-- What `main` calls outside `main.go`.  An error is a `String`; `none` in an
`Option String` result is Go's `nil` error. -/
structure Env where
  /-- Error of `pgxpool.New(ctx, *dbUrl)` (line 60). -/
  poolNew : String → Option String
  /-- Error of `dbpool.Ping(ctx)` (line 67). -/
  ping : Option String
  /-- Error of `dbpool.Query(ctx, query)` (line 85). -/
  query : Option String
  /-- Result of `rows.Scan(&tableName)` for each row `rows.Next()` yields (94-102). -/
  scans : List (Except String String)
  /-- Value of `rows.Err()` (line 105). -/
  rowsErr : Option String
  /-- Result of `os.Getwd()`, used by `filepath.Abs`. -/
  getwd : Except String String
  /-- Error of `os.MkdirAll(absOutputDir, 0755)` (line 150). -/
  mkdirAll : String → Option String
  /-- Standard library `strings.ToLower`. -/
  ToLower : String → String
  /-- Package function `getTableColumns(ctx, dbpool, tableName)`. -/
  getTableColumns : String → Except String (List ColumnInfo)
  /-- Package function `generateStruct(tableName, columns)`. -/
  generateStruct : String → List ColumnInfo → String
  /-- Package function `generateGoFile(packageName, tableName, structCode)`. -/
  generateGoFile : String → String → String → String
  /-- Package function `generateCombinedFile(packageName, allStructs)`. -/
  generateCombinedFile : String → List String → String
  /-- Error of package function `writeToFile(filePath, content)`. -/
  writeToFile : String → String → Option String

/-- The calls `main` makes, from the creation of the output directory on, in
the order it makes them. -/
inductive Event where
  | mkdirAll (path : String)
  | getTableColumns (tableName : String)
  | generateStruct (tableName : String) (columns : List ColumnInfo)
  | writeToFile (filePath : String) (content : String) (err : Option String)
deriving DecidableEq, Repr

/-- The values printed by the summary (main.go 208-219). -/
structure Summary where
  /-- The count of line 209, `len(allStructs)`. -/
  structCount : Nat
  /-- The directory of line 210, `absOutputDir`. -/
  outputDirectory : String
  /-- The name of line 211. -/
  packageName : String
  /-- The mode of line 212. -/
  outputMode : String
  /-- The files listed by lines 214-219: each element of `generatedFiles`,
  nothing when the list is empty. -/
  files : List String
deriving DecidableEq, Repr

/-- What a run of `main` leaves behind: the exit status (0 when `main`
returns, 1 on `os.Exit(1)`), the calls made, the final values of the
variables `allStructs` and `generatedFiles`, and the summary if one was
printed. -/
structure Outcome where
  exitCode : Nat
  trace : List Event
  allStructs : List String
  generatedFiles : List String
  summary : Option Summary
deriving DecidableEq, Repr

/-! ## `path/filepath` on Unix -/

/-- The elements of a path: the runs of characters between separators,
empty runs included. -/
def splitSep : List Char → List (List Char)
  | [] => [[]]
  | c :: cs =>
    if c = '/' then [] :: splitSep cs
    else
      match splitSep cs with
      | [] => [[c]]
      | e :: es => (c :: e) :: es

/-- One element processed by `filepath.Clean`: empty elements and `.` are
dropped; `..` removes the element before it when there is one that is not
itself `..`, is dropped at the root, and is kept otherwise; any other element
is kept. -/
def cleanStep (rooted : Bool) (out : List (List Char)) (e : List Char) :
    List (List Char) :=
  if e = [] ∨ e = ['.'] then out
  else if e = ['.', '.'] then
    match out.getLast? with
    | some top => if top = ['.', '.'] then out ++ [e] else out.dropLast
    | none => if rooted then out else out ++ [e]
  else out ++ [e]

/-- Standard library `filepath.Clean`. -/
def filepathClean (path : String) : String :=
  if path.data = [] then "."
  else
    let rooted : Bool := path.data.head? = some '/'
    let out := (splitSep path.data).foldl (cleanStep rooted) []
    if rooted then String.mk ('/' :: List.intercalate ['/'] out)
    else if out = [] then "."
    else String.mk (List.intercalate ['/'] out)

/-- Standard library `strings.Join(elem, "/")`. -/
def stringsJoinSep : List String → List Char
  | [] => []
  | [e] => e.data
  | e :: es => e.data ++ '/' :: stringsJoinSep es

/-- Standard library `filepath.Join`: the elements from the first non-empty
one on, joined by the separator and cleaned; the empty string when there is
no non-empty element. -/
def filepathJoin (elem : List String) : String :=
  match elem.dropWhile (fun e => e = "") with
  | [] => ""
  | es => filepathClean (String.mk (stringsJoinSep es))

/-- Standard library `filepath.IsAbs`. -/
def filepathIsAbs (path : String) : Bool :=
  path.data.head? = some '/'

/-- Standard library `filepath.Abs`. -/
def filepathAbs (getwd : Except String String) (path : String) :
    Except String String :=
  if filepathIsAbs path then .ok (filepathClean path)
  else
    match getwd with
    | .error e => .error e
    | .ok wd => .ok (filepathJoin [wd, path])

/-! ## `main` -/

/-- Standard library `filepath.Separator` on Unix. -/
def filepathSeparator : Char := '/'

/-- Standard library `strings.HasPrefix(s, start)`. -/
def stringsHasPrefix (s start : String) : Bool :=
  start.data.isPrefixOf s.data

/-- Standard library `strings.Replace(s, old, new, 1)` for a non-empty `old`:
the first occurrence of `old` replaced by `new`. -/
def stringsReplaceFirst (old new : List Char) : List Char → List Char
  | [] => []
  | c :: cs =>
    if old.isPrefixOf (c :: cs) then new ++ (c :: cs).drop old.length
    else c :: stringsReplaceFirst old new cs

/-- Lines 131-141: the output path the directory is made from. -/
def mainOutputPath (outputDir : String) : String :=
  let outputPath := if outputDir = "" then "models" else outputDir
  let outputPath := filepathClean outputPath
  if stringsHasPrefix outputPath (String.mk ['.', filepathSeparator]) then
    String.mk (outputPath.data.drop 2)
  else if stringsHasPrefix outputPath "./" then
    String.mk (stringsReplaceFirst "./".data "".data outputPath.data)
  else outputPath

/-- Lines 94-102: the table names scanned, or the first scan error. -/
def mainScan : List (Except String String) → Except String (List String)
  | [] => .ok []
  | .error e :: _ => .error e
  | .ok tableName :: rest =>
    match mainScan rest with
    | .error e => .error e
    | .ok tables => .ok (tableName :: tables)

/-- Lines 85-108: the list of tables, or the error that makes `main` exit. -/
def mainReadTables (env : Env) : Except String (List String) :=
  match env.query with
  | some e => .error e
  | none =>
    match mainScan env.scans with
    | .error e => .error e
    | .ok tables =>
      match env.rowsErr with
      | some e => .error e
      | none => .ok tables

/-- The variables the per-table loop updates, with the calls made so far. -/
structure LoopState where
  allStructs : List String
  generatedFiles : List String
  trace : List Event
deriving DecidableEq, Repr

/-- Lines 161-191: one iteration of the per-table loop. -/
def mainLoopBody (env : Env) (flags : Flags) (st : LoopState) (tableName : String) :
    LoopState :=
  let st1 : LoopState :=
    { st with trace := st.trace ++ [Event.getTableColumns tableName] }
  match env.getTableColumns tableName with
  | .error _ => st1
  | .ok columns =>
    if columns.length > 0 then
      let structCode := env.generateStruct tableName columns
      let st2 : LoopState :=
        { st1 with
          allStructs := st1.allStructs ++ [structCode]
          trace := st1.trace ++ [Event.generateStruct tableName columns] }
      if flags.outputMode = "separate" ∨ flags.outputMode = "both" then
        let fileContent := env.generateGoFile flags.packageName tableName structCode
        let fileName := env.ToLower tableName ++ ".go"
        let filePath := filepathJoin [flags.outputDir, fileName]
        match env.writeToFile filePath fileContent with
        | some err =>
          { st2 with
            trace := st2.trace ++ [Event.writeToFile filePath fileContent (some err)] }
        | none =>
          { st2 with
            generatedFiles := st2.generatedFiles ++ [fileName]
            trace := st2.trace ++ [Event.writeToFile filePath fileContent none] }
      else st2
    else st1

/-- Lines 161-191: the per-table loop. -/
def mainLoop (env : Env) (flags : Flags) (tables : List String) (st : LoopState) :
    LoopState :=
  tables.foldl (mainLoopBody env flags) st

/-- Lines 193-205: the combined file. -/
def mainCombined (env : Env) (flags : Flags) (st : LoopState) : LoopState :=
  if (flags.outputMode = "combined" ∨ flags.outputMode = "both")
      ∧ st.allStructs.length > 0 then
    let combinedContent := env.generateCombinedFile flags.packageName st.allStructs
    let combinedPath := filepathJoin [flags.outputDir, "models.go"]
    match env.writeToFile combinedPath combinedContent with
    | some err =>
      { st with
        trace := st.trace ++ [Event.writeToFile combinedPath combinedContent (some err)] }
    | none =>
      { st with
        generatedFiles := st.generatedFiles ++ ["models.go"]
        trace := st.trace ++ [Event.writeToFile combinedPath combinedContent none] }
  else st

/-- A run that ends before the per-table loop, with the given exit status. -/
def Outcome.early (code : Nat) : Outcome :=
  { exitCode := code, trace := [], allStructs := [], generatedFiles := [],
    summary := none }

/-- Lines 110-219: what `main` does once it has the list of tables. -/
def mainGenerate (env : Env) (flags : Flags) (tables : List String) : Outcome :=
  if tables.length = 0 then Outcome.early 0
  else
    match filepathAbs env.getwd (mainOutputPath flags.outputDir) with
    | .error _ => Outcome.early 1
    | .ok absOutputDir =>
      match env.mkdirAll absOutputDir with
      | some _ =>
        { Outcome.early 1 with trace := [Event.mkdirAll absOutputDir] }
      | none =>
        let st := mainLoop env flags tables
          { allStructs := [], generatedFiles := [],
            trace := [Event.mkdirAll absOutputDir] }
        let st := mainCombined env flags st
        { exitCode := 0
          trace := st.trace
          allStructs := st.allStructs
          generatedFiles := st.generatedFiles
          summary := some
            { structCount := st.allStructs.length
              outputDirectory := absOutputDir
              packageName := flags.packageName
              outputMode := flags.outputMode
              files := if st.generatedFiles.length > 0 then st.generatedFiles else [] } }

/-- The function `main` (main.go 21-220). -/
def main (env : Env) (flags : Flags) : Outcome :=
  if flags.help = true ∨ flags.dbUrl = "" then
    if flags.dbUrl = "" then Outcome.early 1 else Outcome.early 0
  else
    match env.poolNew flags.dbUrl with
    | some _ => Outcome.early 1
    | none =>
      match env.ping with
      | some _ => Outcome.early 1
      | none =>
        match mainReadTables env with
        | .error _ => Outcome.early 1
        | .ok tables => mainGenerate env flags tables

/-! ## Reading a run -/

/-- The columns `getTableColumns` returns for a table; none when it fails. -/
def columnsOf (env : Env) (tableName : String) : List ColumnInfo :=
  match env.getTableColumns tableName with
  | .ok columns => columns
  | .error _ => []

/-- The column listing of the table succeeds with at least one column. -/
def hasColumns (env : Env) (tableName : String) : Bool :=
  decide (0 < (columnsOf env tableName).length)

/-- The test of line 175. -/
def perTableMode (flags : Flags) : Bool :=
  decide (flags.outputMode = "separate" ∨ flags.outputMode = "both")

/-- The mode half of the test of line 194. -/
def combinedMode (flags : Flags) : Bool :=
  decide (flags.outputMode = "combined" ∨ flags.outputMode = "both")

/-- The struct text of a table, `generateStruct(tableName, columns)`. -/
def structOf (env : Env) (tableName : String) : String :=
  env.generateStruct tableName (columnsOf env tableName)

/-- The file name of line 177. -/
def fileNameOf (env : Env) (tableName : String) : String :=
  env.ToLower tableName ++ ".go"

/-- The file path of line 178. -/
def filePathOf (env : Env) (flags : Flags) (tableName : String) : String :=
  filepathJoin [flags.outputDir, fileNameOf env tableName]

/-- The file content of line 176. -/
def fileContentOf (env : Env) (flags : Flags) (tableName : String) : String :=
  env.generateGoFile flags.packageName tableName (structOf env tableName)

/-- The path of line 196. -/
def combinedPath (flags : Flags) : String :=
  filepathJoin [flags.outputDir, "models.go"]

/-- The `(filePath, content)` of every `writeToFile` call, in order. -/
def writesOf : List Event → List (String × String)
  | [] => []
  | Event.writeToFile p c _ :: rest => (p, c) :: writesOf rest
  | _ :: rest => writesOf rest

/-- The `writeToFile` calls, with their results, in order. -/
def writeEventsOf : List Event → List Event
  | [] => []
  | Event.writeToFile p c r :: rest => Event.writeToFile p c r :: writeEventsOf rest
  | _ :: rest => writeEventsOf rest

/-- The paths of the `writeToFile` calls that returned no error, in order. -/
def writtenOf : List Event → List String
  | [] => []
  | Event.writeToFile p _ none :: rest => p :: writtenOf rest
  | _ :: rest => writtenOf rest

/-- The table names `getTableColumns` was called with, in order. -/
def columnCallsOf : List Event → List String
  | [] => []
  | Event.getTableColumns t :: rest => t :: columnCallsOf rest
  | _ :: rest => columnCallsOf rest

/-- The table names `generateStruct` was called with, in order. -/
def structCallsOf : List Event → List String
  | [] => []
  | Event.generateStruct t _ :: rest => t :: structCallsOf rest
  | _ :: rest => structCallsOf rest

/-- The run got as far as the per-table loop: the flags ask for a run, the
connection, the table listing and the output directory all succeeded. -/
def Started (env : Env) (flags : Flags) (tables : List String)
    (absOutputDir : String) : Prop :=
  flags.help = false ∧ flags.dbUrl ≠ "" ∧ env.poolNew flags.dbUrl = none ∧
  env.ping = none ∧ mainReadTables env = .ok tables ∧
  filepathAbs env.getwd (mainOutputPath flags.outputDir) = .ok absOutputDir ∧
  env.mkdirAll absOutputDir = none

/-- The state before the first iteration. -/
def LoopState.empty : LoopState :=
  { allStructs := [], generatedFiles := [], trace := [] }

/-- One state followed by what a later stretch of the run added. -/
def LoopState.append (a b : LoopState) : LoopState :=
  { allStructs := a.allStructs ++ b.allStructs
    generatedFiles := a.generatedFiles ++ b.generatedFiles
    trace := a.trace ++ b.trace }

/-- The per-table file of the table was written without error. -/
def fileWritten (env : Env) (flags : Flags) (t : String) : Bool :=
  hasColumns env t && perTableMode flags &&
    decide (env.writeToFile (filePathOf env flags t) (fileContentOf env flags t) = none)

/-- The structs of the tables with columns, in table order. -/
def structsOf (env : Env) (tables : List String) : List String :=
  (tables.filter (hasColumns env)).map (structOf env)

/-- The content of line 195. -/
def combinedContentOf (env : Env) (flags : Flags) (tables : List String) : String :=
  env.generateCombinedFile flags.packageName (structsOf env tables)

/-- The combined file was written without error. -/
def combinedWritten (env : Env) (flags : Flags) (tables : List String) : Bool :=
  combinedMode flags && decide (structsOf env tables ≠ []) &&
    decide (env.writeToFile (combinedPath flags) (combinedContentOf env flags tables) = none)

/-- The loop and the combined file, from the empty state. -/
def runState (env : Env) (flags : Flags) (tables : List String) : LoopState :=
  mainCombined env flags (mainLoop env flags tables LoopState.empty)

/-- The per-table writes of a run: one per table with columns when the mode
asks for per-table files, none otherwise. -/
def tableWrites (env : Env) (flags : Flags) (tables : List String) :
    List (String × String) :=
  if perTableMode flags then
    (tables.filter (hasColumns env)).map (fun t =>
      (filePathOf env flags t, fileContentOf env flags t))
  else []

/-- The combined write of a run: one when the mode asks for it and there is a
struct, none otherwise. -/
def combinedWrites (env : Env) (flags : Flags) (tables : List String) :
    List (String × String) :=
  if combinedMode flags ∧ structsOf env tables ≠ [] then
    [(combinedPath flags, combinedContentOf env flags tables)]
  else []

/-- The same environment, except that the write of the per-table file of the
table `t` returns no error. -/
def writeSucceedsFor (env : Env) (flags : Flags) (t : String) : Env :=
  { env with
    writeToFile := fun filePath content =>
      if filePath = filePathOf env flags t ∧ content = fileContentOf env flags t
      then none
      else env.writeToFile filePath content }

/-- A single path element that names a file: no separator, not empty, not `.`
and not `..`. -/
def IsFileName (f : List Char) : Prop :=
  '/' ∉ f ∧ f ≠ [] ∧ f ≠ ['.'] ∧ f ≠ ['.', '.']

/-! ## Concrete runs -/

/-- A lower-casing of the letters `A` to `Z`, which is what `strings.ToLower`
does to a string of ASCII characters. -/
def asciiToLower (s : String) : String :=
  String.mk (s.data.map fun c =>
    if 'A'.toNat ≤ c.toNat ∧ c.toNat ≤ 'Z'.toNat then Char.ofNat (c.toNat + 32) else c)

/-- A column used by the concrete runs. -/
def idColumn : ColumnInfo :=
  { Name := "id", GoType := "int64", IsNullable := false, IsPrimaryKey := true }

/-- A database with the given tables, each with the one column `id`, except
that the column listing fails for the tables in `unlisted`; a file system whose
working directory is `/work` and in which the paths in `unwritable` cannot be
written. -/
def demoEnv (tables unlisted unwritable : List String) : Env :=
  { poolNew := fun _ => none
    ping := none
    query := none
    scans := tables.map Except.ok
    rowsErr := none
    getwd := .ok "/work"
    mkdirAll := fun _ => none
    ToLower := asciiToLower
    getTableColumns := fun t =>
      if t ∈ unlisted then .error "relation does not exist" else .ok [idColumn]
    generateStruct := fun t _ => "type " ++ t ++ " struct"
    generateGoFile := fun pkg _ structCode => "package " ++ pkg ++ "; " ++ structCode
    generateCombinedFile := fun pkg structs =>
      "package " ++ pkg ++ "; " ++ String.intercalate "; " structs
    writeToFile := fun filePath _ =>
      if filePath ∈ unwritable then some "permission denied" else none }

/-- The flags `-db postgres://localhost/blog -output <outputDir> -mode <mode>`. -/
def demoFlags (outputDir mode : String) : Flags :=
  { dbUrl := "postgres://localhost/blog", outputDir := outputDir,
    packageName := "models", outputMode := mode, help := false }

/-! ## Joining a directory and a file name -/

theorem splitSep_ne_nil (l : List Char) : splitSep l ≠ [] := by
  induction l with
  | nil => simp [splitSep]
  | cons c cs ih =>
    unfold splitSep
    by_cases hc : c = '/'
    · simp [hc]
    · simp only [hc, if_false]
      cases h : splitSep cs with
      | nil => exact absurd h ih
      | cons e es => simp

theorem splitSep_cons_of_ne (c : Char) (cs : List Char) (hc : c ≠ '/') :
    splitSep (c :: cs)
      = match splitSep cs with
        | [] => [[c]]
        | e :: es => (c :: e) :: es := by
  rw [splitSep, if_neg hc]

theorem splitSep_of_no_sep (l : List Char) (h : '/' ∉ l) : splitSep l = [l] := by
  induction l with
  | nil => rfl
  | cons c cs ih =>
    have hc : c ≠ '/' := fun hc => h (by simp [hc])
    have hcs : '/' ∉ cs := fun hm => h (List.mem_cons_of_mem _ hm)
    simp [splitSep, hc, ih hcs]

theorem splitSep_append_sep (d f : List Char) (h : '/' ∉ f) :
    splitSep (d ++ '/' :: f) = splitSep d ++ [f] := by
  induction d with
  | nil => simp [splitSep, splitSep_of_no_sep f h]
  | cons c cs ih =>
    by_cases hc : c = '/'
    · simp [splitSep, hc, ih]
    · rw [List.cons_append, splitSep_cons_of_ne _ _ hc, splitSep_cons_of_ne _ _ hc, ih]
      cases hs : splitSep cs with
      | nil => exact absurd hs (splitSep_ne_nil cs)
      | cons e es => simp

theorem cleanStep_fileName (rooted : Bool) (out : List (List Char)) (f : List Char)
    (hf : IsFileName f) : cleanStep rooted out f = out ++ [f] := by
  obtain ⟨_, h1, h2, h3⟩ := hf
  simp [cleanStep, h1, h2, h3]

theorem intercalate_snoc (sep : List Char) (xs : List (List Char)) (f : List Char) :
    List.intercalate sep (xs ++ [f])
      = (if xs = [] then [] else List.intercalate sep xs ++ sep) ++ f := by
  induction xs with
  | nil => simp [List.intercalate]
  | cons x ys ih =>
    cases ys with
    | nil => simp [List.intercalate]
    | cons y zs =>
      simp only [List.intercalate, List.cons_append, List.intersperse_cons₂,
        List.flatten_cons] at ih ⊢
      simp [ih]

/-- Joining a directory with a file name puts the name, unchanged, after a
text that depends on the directory alone. -/
theorem filepathJoin_fileName (d : String) :
    ∃ dir : List Char, ∀ f : String, IsFileName f.data →
      filepathJoin [d, f] = String.mk (dir ++ f.data) := by
  by_cases hd : d = ""
  · refine ⟨[], fun f hf => ?_⟩
    obtain ⟨hsep, hne, h1, h2⟩ := hf
    have hfne : f ≠ "" := fun h => hne (by rw [h])
    have hhead : f.data.head? ≠ some '/' := by
      cases hfd : f.data with
      | nil => simp
      | cons c cs =>
        intro hh
        simp only [List.head?_cons, Option.some.injEq] at hh
        exact hsep (by rw [hfd, hh]; simp)
    simp [filepathJoin, hd, hfne, stringsJoinSep, filepathClean, hne, hhead,
      splitSep_of_no_sep _ hsep, cleanStep, h1, h2, List.intercalate]
  · have hdd : d.data ≠ [] := fun h => hd (by cases d; simp_all)
    refine ⟨(if (d.data.head? = some '/') then ['/'] else []) ++
      (if (splitSep d.data).foldl (cleanStep (d.data.head? = some '/')) [] = [] then []
        else List.intercalate ['/']
          ((splitSep d.data).foldl (cleanStep (d.data.head? = some '/')) []) ++ ['/']),
      fun f hf => ?_⟩
    have hsep := hf.1
    have hhead : (d.data ++ '/' :: f.data).head? = d.data.head? := by
      cases hdata : d.data with
      | nil => exact absurd hdata hdd
      | cons c cs => simp
    simp only [filepathJoin, List.dropWhile, hd, decide_False, stringsJoinSep,
      filepathClean, List.append_eq_nil, hdd, false_and, if_false, hhead,
      splitSep_append_sep _ _ hsep, List.foldl_append, List.foldl_cons, List.foldl_nil,
      cleanStep_fileName _ _ _ hf, intercalate_snoc]
    by_cases hr : d.data.head? = some '/'
    · simp [hr]
    · simp [hr]

/-! ## The loop, iteration by iteration -/

theorem LoopState.append_empty (a : LoopState) : a.append LoopState.empty = a := by
  cases a; simp [LoopState.append, LoopState.empty]

theorem LoopState.empty_append (a : LoopState) : LoopState.empty.append a = a := by
  cases a; simp [LoopState.append, LoopState.empty]

theorem LoopState.append_assoc (a b c : LoopState) :
    (a.append b).append c = a.append (b.append c) := by
  simp [LoopState.append, List.append_assoc]

theorem mainLoopBody_append (env : Env) (flags : Flags) (st : LoopState) (t : String) :
    mainLoopBody env flags st t
      = st.append (mainLoopBody env flags LoopState.empty t) := by
  unfold mainLoopBody
  cases hcols : env.getTableColumns t with
  | error e => simp [LoopState.append, LoopState.empty]
  | ok columns =>
    by_cases hlen : columns.length > 0
    · by_cases hmode : flags.outputMode = "separate" ∨ flags.outputMode = "both"
      · cases hw : env.writeToFile (filepathJoin [flags.outputDir, env.ToLower t ++ ".go"])
            (env.generateGoFile flags.packageName t (env.generateStruct t columns)) <;>
          simp [LoopState.append, LoopState.empty, hlen, hmode, hw]
      · simp [LoopState.append, LoopState.empty, hlen, hmode]
    · simp [LoopState.append, LoopState.empty, hlen]

theorem mainLoop_append (env : Env) (flags : Flags) (tables : List String)
    (st : LoopState) :
    mainLoop env flags tables st
      = st.append (mainLoop env flags tables LoopState.empty) := by
  induction tables generalizing st with
  | nil => simp [mainLoop, LoopState.append_empty]
  | cons t ts ih =>
    have h1 := ih (mainLoopBody env flags st t)
    have h2 := ih (mainLoopBody env flags LoopState.empty t)
    simp only [mainLoop, List.foldl_cons] at h1 h2 ⊢
    rw [h1, h2, mainLoopBody_append env flags st t, LoopState.append_assoc]

theorem mainLoop_cons (env : Env) (flags : Flags) (t : String) (ts : List String) :
    mainLoop env flags (t :: ts) LoopState.empty
      = (mainLoopBody env flags LoopState.empty t).append
          (mainLoop env flags ts LoopState.empty) := by
  have h := mainLoop_append env flags ts (mainLoopBody env flags LoopState.empty t)
  simpa [mainLoop] using h

theorem mainLoopBody_empty (env : Env) (flags : Flags) (t : String) :
    mainLoopBody env flags LoopState.empty t =
      { allStructs := if hasColumns env t then [structOf env t] else []
        generatedFiles :=
          if hasColumns env t ∧ perTableMode flags ∧
              env.writeToFile (filePathOf env flags t) (fileContentOf env flags t) = none
          then [fileNameOf env t] else []
        trace := Event.getTableColumns t ::
          (if hasColumns env t then
            Event.generateStruct t (columnsOf env t) ::
              (if perTableMode flags then
                [Event.writeToFile (filePathOf env flags t) (fileContentOf env flags t)
                  (env.writeToFile (filePathOf env flags t) (fileContentOf env flags t))]
              else [])
          else []) } := by
  unfold mainLoopBody hasColumns perTableMode filePathOf fileContentOf fileNameOf
    structOf columnsOf
  cases hcols : env.getTableColumns t with
  | error e => simp [LoopState.empty]
  | ok columns =>
    by_cases hlen : columns.length > 0
    · by_cases hmode : flags.outputMode = "separate" ∨ flags.outputMode = "both"
      · cases hw : env.writeToFile (filepathJoin [flags.outputDir, env.ToLower t ++ ".go"])
            (env.generateGoFile flags.packageName t (env.generateStruct t columns)) <;>
          simp [LoopState.empty, hlen, hmode, hw]
      · simp [LoopState.empty, hlen, hmode]
    · simp [LoopState.empty, hlen]

theorem writesOf_append (a b : List Event) :
    writesOf (a ++ b) = writesOf a ++ writesOf b := by
  induction a with
  | nil => rfl
  | cons e es ih => cases e <;> simp [writesOf, ih]

theorem writeEventsOf_append (a b : List Event) :
    writeEventsOf (a ++ b) = writeEventsOf a ++ writeEventsOf b := by
  induction a with
  | nil => rfl
  | cons e es ih => cases e <;> simp [writeEventsOf, ih]

theorem writtenOf_append (a b : List Event) :
    writtenOf (a ++ b) = writtenOf a ++ writtenOf b := by
  induction a with
  | nil => rfl
  | cons e es ih =>
    cases e with
    | writeToFile p c r => cases r <;> simp [writtenOf, ih]
    | _ => simp [writtenOf, ih]

theorem columnCallsOf_append (a b : List Event) :
    columnCallsOf (a ++ b) = columnCallsOf a ++ columnCallsOf b := by
  induction a with
  | nil => rfl
  | cons e es ih => cases e <;> simp [columnCallsOf, ih]

theorem structCallsOf_append (a b : List Event) :
    structCallsOf (a ++ b) = structCallsOf a ++ structCallsOf b := by
  induction a with
  | nil => rfl
  | cons e es ih => cases e <;> simp [structCallsOf, ih]

/-- The structs the loop collects: one per table with columns, in table order. -/
theorem mainLoop_allStructs (env : Env) (flags : Flags) (tables : List String) :
    (mainLoop env flags tables LoopState.empty).allStructs
      = (tables.filter (hasColumns env)).map (structOf env) := by
  induction tables with
  | nil => rfl
  | cons t ts ih =>
    rw [mainLoop_cons, mainLoopBody_empty]
    simp only [LoopState.append, ih]
    by_cases h : hasColumns env t = true <;> simp [List.filter_cons, h]

/-- The loop asks for the columns of every table, once, in table order. -/
theorem mainLoop_columnCalls (env : Env) (flags : Flags) (tables : List String) :
    columnCallsOf (mainLoop env flags tables LoopState.empty).trace = tables := by
  induction tables with
  | nil => rfl
  | cons t ts ih =>
    rw [mainLoop_cons, mainLoopBody_empty]
    simp only [LoopState.append, columnCallsOf_append, ih]
    by_cases h : hasColumns env t = true <;>
      by_cases hm : perTableMode flags = true <;> simp [columnCallsOf, h, hm]

/-- The loop calls `generateStruct` once for every table with columns. -/
theorem mainLoop_structCalls (env : Env) (flags : Flags) (tables : List String) :
    structCallsOf (mainLoop env flags tables LoopState.empty).trace
      = tables.filter (hasColumns env) := by
  induction tables with
  | nil => rfl
  | cons t ts ih =>
    rw [mainLoop_cons, mainLoopBody_empty]
    simp only [LoopState.append, structCallsOf_append, ih]
    by_cases h : hasColumns env t = true <;>
      by_cases hm : perTableMode flags = true <;>
        simp [structCallsOf, h, hm, List.filter_cons]

/-- The writes of the loop, with their results. -/
theorem mainLoop_writeEvents (env : Env) (flags : Flags) (tables : List String) :
    writeEventsOf (mainLoop env flags tables LoopState.empty).trace
      = if perTableMode flags then
          (tables.filter (hasColumns env)).map (fun t =>
            Event.writeToFile (filePathOf env flags t) (fileContentOf env flags t)
              (env.writeToFile (filePathOf env flags t) (fileContentOf env flags t)))
        else [] := by
  induction tables with
  | nil => simp [mainLoop, LoopState.empty, writeEventsOf]
  | cons t ts ih =>
    rw [mainLoop_cons, mainLoopBody_empty]
    simp only [LoopState.append, writeEventsOf_append, ih]
    by_cases h : hasColumns env t = true <;>
      by_cases hm : perTableMode flags = true <;>
        simp [writeEventsOf, h, hm, List.filter_cons]

/-- The writes of the loop. -/
theorem mainLoop_writes (env : Env) (flags : Flags) (tables : List String) :
    writesOf (mainLoop env flags tables LoopState.empty).trace
      = if perTableMode flags then
          (tables.filter (hasColumns env)).map (fun t =>
            (filePathOf env flags t, fileContentOf env flags t))
        else [] := by
  induction tables with
  | nil => simp [mainLoop, LoopState.empty, writesOf]
  | cons t ts ih =>
    rw [mainLoop_cons, mainLoopBody_empty]
    simp only [LoopState.append, writesOf_append, ih]
    by_cases h : hasColumns env t = true <;>
      by_cases hm : perTableMode flags = true <;>
        simp [writesOf, h, hm, List.filter_cons]

/-- The file names the loop records. -/
theorem mainLoop_generatedFiles (env : Env) (flags : Flags) (tables : List String) :
    (mainLoop env flags tables LoopState.empty).generatedFiles
      = (tables.filter (fileWritten env flags)).map (fileNameOf env) := by
  induction tables with
  | nil => rfl
  | cons t ts ih =>
    rw [mainLoop_cons, mainLoopBody_empty]
    simp only [LoopState.append, ih]
    by_cases h : hasColumns env t = true <;>
      by_cases hm : perTableMode flags = true <;>
        by_cases hw : env.writeToFile (filePathOf env flags t)
            (fileContentOf env flags t) = none <;>
          simp [fileWritten, h, hm, hw, List.filter_cons]

/-- The paths the loop wrote without error. -/
theorem mainLoop_written (env : Env) (flags : Flags) (tables : List String) :
    writtenOf (mainLoop env flags tables LoopState.empty).trace
      = (tables.filter (fileWritten env flags)).map (filePathOf env flags) := by
  induction tables with
  | nil => rfl
  | cons t ts ih =>
    rw [mainLoop_cons, mainLoopBody_empty]
    simp only [LoopState.append, writtenOf_append, ih]
    by_cases h : hasColumns env t = true <;>
      by_cases hm : perTableMode flags = true <;>
        cases hw : env.writeToFile (filePathOf env flags t)
            (fileContentOf env flags t) <;>
          simp [writtenOf, fileWritten, h, hm, hw, List.filter_cons]

/-- The combined file adds at most one write and one file name. -/
theorem mainCombined_eq (env : Env) (flags : Flags) (st : LoopState) :
    mainCombined env flags st = st.append
      { allStructs := []
        generatedFiles :=
          if combinedMode flags ∧ st.allStructs ≠ [] ∧
              env.writeToFile (combinedPath flags)
                (env.generateCombinedFile flags.packageName st.allStructs) = none
          then ["models.go"] else []
        trace :=
          if combinedMode flags ∧ st.allStructs ≠ [] then
            [Event.writeToFile (combinedPath flags)
              (env.generateCombinedFile flags.packageName st.allStructs)
              (env.writeToFile (combinedPath flags)
                (env.generateCombinedFile flags.packageName st.allStructs))]
          else [] } := by
  unfold mainCombined combinedMode combinedPath
  obtain ⟨a, g, tr⟩ := st
  by_cases hmode : flags.outputMode = "combined" ∨ flags.outputMode = "both"
  · by_cases hlen : a = []
    · simp [LoopState.append, hmode, hlen]
    · have hpos : a.length > 0 := List.length_pos.mpr hlen
      cases hw : env.writeToFile (filepathJoin [flags.outputDir, "models.go"])
          (env.generateCombinedFile flags.packageName a) <;>
        simp [LoopState.append, hmode, hlen, hpos, hw]
  · simp [LoopState.append, hmode]

theorem mainCombined_append (env : Env) (flags : Flags) (a b : LoopState)
    (ha : a.allStructs = []) :
    mainCombined env flags (a.append b) = a.append (mainCombined env flags b) := by
  rw [mainCombined_eq env flags (a.append b), mainCombined_eq env flags b,
    LoopState.append_assoc]
  simp [LoopState.append, ha]

theorem runState_nil (env : Env) (flags : Flags) :
    runState env flags [] = LoopState.empty := by
  unfold runState
  rw [mainCombined_eq]
  simp [mainLoop, LoopState.empty, LoopState.append]

/-- A started run is the loop and the combined file after `MkdirAll`, and it
returns normally. -/
theorem main_started (env : Env) (flags : Flags) (tables : List String)
    (absOutputDir : String) (h : Started env flags tables absOutputDir) :
    (main env flags).exitCode = 0 ∧
    (main env flags).allStructs = (runState env flags tables).allStructs ∧
    (main env flags).generatedFiles = (runState env flags tables).generatedFiles ∧
    ((main env flags).trace = (runState env flags tables).trace ∨
      (main env flags).trace
        = Event.mkdirAll absOutputDir :: (runState env flags tables).trace) := by
  obtain ⟨hhelp, hdb, hpool, hping, hread, habs, hmk⟩ := h
  by_cases hts : tables = []
  · subst hts
    simp [main, hhelp, hdb, hpool, hping, hread, mainGenerate, Outcome.early,
      runState_nil, LoopState.empty]
  · have hlen : ¬ tables.length = 0 := by
      intro h0; exact hts (List.length_eq_zero.mp h0)
    have hst : mainCombined env flags (mainLoop env flags tables
          { allStructs := [], generatedFiles := [],
            trace := [Event.mkdirAll absOutputDir] })
        = LoopState.append
            { allStructs := [], generatedFiles := [],
              trace := [Event.mkdirAll absOutputDir] }
            (runState env flags tables) := by
      rw [mainLoop_append, mainCombined_append _ _ _ _ rfl]; rfl
    simp [main, hhelp, hdb, hpool, hping, hread, mainGenerate, hlen, habs, hmk,
      hst, LoopState.append]

/-! ## The whole run in closed form -/

theorem runState_allStructs (env : Env) (flags : Flags) (tables : List String) :
    (runState env flags tables).allStructs = structsOf env tables := by
  unfold runState
  rw [mainCombined_eq]
  simp [LoopState.append, mainLoop_allStructs, structsOf]

theorem runState_columnCalls (env : Env) (flags : Flags) (tables : List String) :
    columnCallsOf (runState env flags tables).trace = tables := by
  unfold runState
  rw [mainCombined_eq]
  simp only [LoopState.append, columnCallsOf_append, mainLoop_columnCalls]
  split <;> simp [columnCallsOf]

theorem runState_structCalls (env : Env) (flags : Flags) (tables : List String) :
    structCallsOf (runState env flags tables).trace = tables.filter (hasColumns env) := by
  unfold runState
  rw [mainCombined_eq]
  simp only [LoopState.append, structCallsOf_append, mainLoop_structCalls]
  split <;> simp [structCallsOf]

theorem runState_writes (env : Env) (flags : Flags) (tables : List String) :
    writesOf (runState env flags tables).trace
      = tableWrites env flags tables ++ combinedWrites env flags tables := by
  unfold runState
  rw [mainCombined_eq]
  simp only [LoopState.append, writesOf_append, mainLoop_writes, mainLoop_allStructs]
  unfold tableWrites combinedWrites combinedContentOf structsOf
  congr 1
  split <;> simp [writesOf]

theorem runState_writeEvents (env : Env) (flags : Flags) (tables : List String) :
    writeEventsOf (runState env flags tables).trace
      = (writesOf (runState env flags tables).trace).map (fun pc =>
          Event.writeToFile pc.1 pc.2 (env.writeToFile pc.1 pc.2)) := by
  unfold runState
  rw [mainCombined_eq]
  simp only [LoopState.append, writesOf_append, writeEventsOf_append, mainLoop_writes,
    mainLoop_writeEvents, List.map_append]
  congr 1
  · split <;> simp
  · split <;> simp [writesOf, writeEventsOf]

theorem runState_generatedFiles (env : Env) (flags : Flags) (tables : List String) :
    (runState env flags tables).generatedFiles
      = (tables.filter (fileWritten env flags)).map (fileNameOf env)
        ++ (if combinedWritten env flags tables then ["models.go"] else []) := by
  unfold runState
  rw [mainCombined_eq]
  simp only [LoopState.append, mainLoop_generatedFiles, mainLoop_allStructs]
  unfold combinedWritten combinedContentOf structsOf
  congr 1
  simp only [Bool.and_eq_true, decide_eq_true_eq, and_assoc]

theorem runState_written (env : Env) (flags : Flags) (tables : List String) :
    writtenOf (runState env flags tables).trace
      = (tables.filter (fileWritten env flags)).map (filePathOf env flags)
        ++ (if combinedWritten env flags tables then [combinedPath flags] else []) := by
  unfold runState
  rw [mainCombined_eq]
  simp only [LoopState.append, writtenOf_append, mainLoop_written, mainLoop_allStructs]
  unfold combinedWritten combinedContentOf structsOf
  congr 1
  by_cases hm : combinedMode flags = true
  · by_cases hs : List.map (structOf env) (List.filter (hasColumns env) tables) = []
    · simp [hm, hs, writtenOf]
    · cases hw : env.writeToFile (combinedPath flags)
          (env.generateCombinedFile flags.packageName
            (List.map (structOf env) (List.filter (hasColumns env) tables))) <;>
        simp [hm, hs, hw, writtenOf]
  · simp [hm, writtenOf]

theorem mainScan_map_ok (tables : List String) :
    mainScan (tables.map Except.ok) = .ok tables := by
  induction tables with
  | nil => rfl
  | cons t ts ih => simp [mainScan, ih]

/-- A started run stays started when the write results or the rows scanned
change. -/
theorem Started.with_writeToFile {env : Env} {flags : Flags} {tables : List String}
    {absOutputDir : String} (h : Started env flags tables absOutputDir)
    (w : String → String → Option String) :
    Started { env with writeToFile := w } flags tables absOutputDir := h

theorem Started.with_scans {env : Env} {flags : Flags} {tables : List String}
    {absOutputDir : String} (h : Started env flags tables absOutputDir)
    (others : List String) :
    Started { env with scans := others.map Except.ok } flags others absOutputDir := by
  obtain ⟨hhelp, hdb, hpool, hping, hread, habs, hmk⟩ := h
  refine ⟨hhelp, hdb, hpool, hping, ?_, habs, hmk⟩
  have hq : env.query = none := by
    cases hq : env.query with
    | none => rfl
    | some e => simp [mainReadTables, hq] at hread
  have hr : env.rowsErr = none := by
    cases hr : env.rowsErr with
    | none => rfl
    | some e =>
      simp only [mainReadTables, hq, hr] at hread
      cases hs : mainScan env.scans <;> simp [hs] at hread
  simp [mainReadTables, hq, hr, mainScan_map_ok]

/-- The mode does not matter for a run to get started. -/
theorem Started.with_mode {env : Env} {flags : Flags} {tables : List String}
    {absOutputDir : String} (h : Started env flags tables absOutputDir)
    (mode : String) :
    Started env { flags with outputMode := mode } tables absOutputDir := h

theorem main_exitCode (env : Env) (flags : Flags) (tables : List String)
    (absOutputDir : String) (h : Started env flags tables absOutputDir) :
    (main env flags).exitCode = 0 :=
  (main_started env flags tables absOutputDir h).1

theorem main_allStructs (env : Env) (flags : Flags) (tables : List String)
    (absOutputDir : String) (h : Started env flags tables absOutputDir) :
    (main env flags).allStructs = structsOf env tables := by
  rw [(main_started env flags tables absOutputDir h).2.1, runState_allStructs]

theorem main_generatedFiles (env : Env) (flags : Flags) (tables : List String)
    (absOutputDir : String) (h : Started env flags tables absOutputDir) :
    (main env flags).generatedFiles
      = (tables.filter (fileWritten env flags)).map (fileNameOf env)
        ++ (if combinedWritten env flags tables then ["models.go"] else []) := by
  rw [(main_started env flags tables absOutputDir h).2.2.1, runState_generatedFiles]

theorem main_writes (env : Env) (flags : Flags) (tables : List String)
    (absOutputDir : String) (h : Started env flags tables absOutputDir) :
    writesOf (main env flags).trace
      = tableWrites env flags tables ++ combinedWrites env flags tables := by
  rcases (main_started env flags tables absOutputDir h).2.2.2 with ht | ht <;>
    rw [ht] <;> simp [writesOf, runState_writes]

theorem main_writeEvents (env : Env) (flags : Flags) (tables : List String)
    (absOutputDir : String) (h : Started env flags tables absOutputDir) :
    writeEventsOf (main env flags).trace
      = (tableWrites env flags tables ++ combinedWrites env flags tables).map
          (fun pc => Event.writeToFile pc.1 pc.2 (env.writeToFile pc.1 pc.2)) := by
  rcases (main_started env flags tables absOutputDir h).2.2.2 with ht | ht <;>
    rw [ht] <;> simp only [writeEventsOf, runState_writeEvents, runState_writes]

theorem main_written (env : Env) (flags : Flags) (tables : List String)
    (absOutputDir : String) (h : Started env flags tables absOutputDir) :
    writtenOf (main env flags).trace
      = (tables.filter (fileWritten env flags)).map (filePathOf env flags)
        ++ (if combinedWritten env flags tables then [combinedPath flags] else []) := by
  rcases (main_started env flags tables absOutputDir h).2.2.2 with ht | ht <;>
    rw [ht] <;> simp only [writtenOf, runState_written]

theorem main_columnCalls (env : Env) (flags : Flags) (tables : List String)
    (absOutputDir : String) (h : Started env flags tables absOutputDir) :
    columnCallsOf (main env flags).trace = tables := by
  rcases (main_started env flags tables absOutputDir h).2.2.2 with ht | ht <;>
    rw [ht] <;> simp only [columnCallsOf, runState_columnCalls]

theorem main_structCalls (env : Env) (flags : Flags) (tables : List String)
    (absOutputDir : String) (h : Started env flags tables absOutputDir) :
    structCallsOf (main env flags).trace = tables.filter (hasColumns env) := by
  rcases (main_started env flags tables absOutputDir h).2.2.2 with ht | ht <;>
    rw [ht] <;> simp only [structCallsOf, runState_structCalls]

theorem hasColumns_of_ok {env : Env} {t : String} {columns : List ColumnInfo}
    (h : env.getTableColumns t = .ok columns) (hlen : 0 < columns.length) :
    hasColumns env t = true := by
  simp [hasColumns, columnsOf, h, hlen]

theorem hasColumns_eq_false {env : Env} {t : String}
    (h : (∃ e, env.getTableColumns t = .error e) ∨ env.getTableColumns t = .ok []) :
    hasColumns env t = false := by
  rcases h with ⟨e, he⟩ | he <;> simp [hasColumns, columnsOf, he]

theorem filter_eq_self_of_forall {α : Type} (p : α → Bool) (l : List α)
    (h : ∀ a ∈ l, p a = true) : l.filter p = l :=
  List.filter_eq_self.mpr h

/-! ## The claims -/

/-- C1: in separate mode, when the column listing of every table succeeds with
at least one column and every write succeeds, the run performs exactly one
write per table, in table order, to
`filepath.Join(outputDir, strings.ToLower(tableName) + ".go")` with content
`generateGoFile(packageName, tableName, generateStruct(tableName, columns))`,
each without error, and no other write (no `models.go`). -/
theorem separate_one_write_per_table (env : Env) (flags : Flags)
    (tables : List String) (absOutputDir : String)
    (hstart : Started env flags tables absOutputDir)
    (hmode : flags.outputMode = "separate")
    (hcols : ∀ t ∈ tables, ∃ columns,
      env.getTableColumns t = .ok columns ∧ 0 < columns.length)
    (hwrite : ∀ filePath content, env.writeToFile filePath content = none) :
    writeEventsOf (main env flags).trace
      = tables.map (fun t =>
          Event.writeToFile
            (filepathJoin [flags.outputDir, env.ToLower t ++ ".go"])
            (env.generateGoFile flags.packageName t
              (env.generateStruct t (columnsOf env t)))
            none) := by
  have hall : tables.filter (hasColumns env) = tables :=
    filter_eq_self_of_forall _ _ (fun t ht => by
      obtain ⟨columns, hc, hlen⟩ := hcols t ht
      exact hasColumns_of_ok hc hlen)
  rw [main_writeEvents env flags tables absOutputDir hstart]
  simp [tableWrites, combinedWrites, perTableMode, combinedMode, hmode, hall, hwrite,
    filePathOf, fileContentOf, fileNameOf, structOf]

/-- C1, at the tables `posts` and `users`: exactly `posts.go` and `users.go`
are written. -/
theorem separate_one_write_per_table_witness :
    writeEventsOf
        (main (demoEnv ["posts", "users"] [] []) (demoFlags "./models" "separate")).trace
      = [Event.writeToFile "models/posts.go" "package models; type posts struct" none,
         Event.writeToFile "models/users.go" "package models; type users struct" none] :=
  (separate_one_write_per_table (demoEnv ["posts", "users"] [] [])
    (demoFlags "./models" "separate") ["posts", "users"] "/work/models"
    ⟨rfl, by decide, rfl, rfl, rfl, rfl, rfl⟩ rfl
    (fun _ _ => ⟨[idColumn], rfl, by decide⟩)
    (fun _ _ => rfl)).trans (by decide)

/-- C2: in combined mode, with `S` the structs of the tables whose column
listing succeeded with at least one column, in table order: when `S` is not
empty the run performs exactly one write, to
`filepath.Join(outputDir, "models.go")` with content
`generateCombinedFile(packageName, S)`; when `S` is empty it performs no
write. -/
theorem combined_one_write (env : Env) (flags : Flags) (tables : List String)
    (absOutputDir : String) (hstart : Started env flags tables absOutputDir)
    (hmode : flags.outputMode = "combined") :
    writesOf (main env flags).trace
      = if (tables.filter (hasColumns env)).map (structOf env) = [] then []
        else
          [(filepathJoin [flags.outputDir, "models.go"],
            env.generateCombinedFile flags.packageName
              ((tables.filter (hasColumns env)).map (structOf env)))] := by
  rw [main_writes env flags tables absOutputDir hstart]
  have hsep : tableWrites env flags tables = [] := by
    simp [tableWrites, perTableMode, hmode]
  rw [hsep, List.nil_append]
  unfold combinedWrites combinedPath combinedContentOf structsOf
  by_cases hS : (tables.filter (hasColumns env)).map (structOf env) = []
  · rw [if_neg (fun h => h.2 hS), if_pos hS]
  · rw [if_pos ⟨by simp [combinedMode, hmode], hS⟩, if_neg hS]

/-- C2, at the tables `posts` and `users` where the listing of `posts` fails:
one write, of `models.go`, holding the struct of `users`. -/
theorem combined_one_write_witness :
    writesOf
        (main (demoEnv ["posts", "users"] ["posts"] [])
          (demoFlags "./models" "combined")).trace
      = [("models/models.go", "package models; type users struct")] :=
  (combined_one_write (demoEnv ["posts", "users"] ["posts"] [])
    (demoFlags "./models" "combined") ["posts", "users"] "/work/models"
    ⟨rfl, by decide, rfl, rfl, rfl, rfl, rfl⟩ rfl).trans (by decide)

/-- C3: for the same tables, column listings and write results, the writes of
a run in mode `both` are the writes of the run in mode `separate` followed by
the writes of the run in mode `combined`; and the `both` run calls
`getTableColumns` once per table, in table order, and `generateStruct` once
per table with columns. -/
theorem both_is_separate_then_combined (env : Env) (flags : Flags)
    (tables : List String) (absOutputDir : String)
    (hstart : Started env flags tables absOutputDir) :
    writesOf (main env { flags with outputMode := "both" }).trace
      = writesOf (main env { flags with outputMode := "separate" }).trace
        ++ writesOf (main env { flags with outputMode := "combined" }).trace
    ∧ columnCallsOf (main env { flags with outputMode := "both" }).trace = tables
    ∧ structCallsOf (main env { flags with outputMode := "both" }).trace
        = tables.filter (hasColumns env) := by
  refine ⟨?_, main_columnCalls env _ tables absOutputDir (hstart.with_mode "both"),
    main_structCalls env _ tables absOutputDir (hstart.with_mode "both")⟩
  rw [main_writes env _ tables absOutputDir (hstart.with_mode "both"),
    main_writes env _ tables absOutputDir (hstart.with_mode "separate"),
    main_writes env _ tables absOutputDir (hstart.with_mode "combined")]
  simp [tableWrites, combinedWrites, perTableMode, combinedMode, filePathOf,
    fileContentOf, combinedPath, combinedContentOf]

/-- C3, at the tables `posts` and `users`: three writes in mode `both`, two
column listings. -/
theorem both_is_separate_then_combined_witness :
    writesOf (main (demoEnv ["posts", "users"] [] []) (demoFlags "./models" "both")).trace
      = [("models/posts.go", "package models; type posts struct"),
         ("models/users.go", "package models; type users struct"),
         ("models/models.go",
          "package models; type posts struct; type users struct")]
    ∧ columnCallsOf
        (main (demoEnv ["posts", "users"] [] []) (demoFlags "./models" "both")).trace
      = ["posts", "users"] :=
  have h := both_is_separate_then_combined (demoEnv ["posts", "users"] [] [])
    (demoFlags "./models" "both") ["posts", "users"] "/work/models"
    ⟨rfl, by decide, rfl, rfl, rfl, rfl, rfl⟩
  ⟨h.1.trans (by decide), h.2.1⟩

theorem filter_skip {α : Type} (p : α → Bool) (pre post : List α) (t : α)
    (h : p t = false) : (pre ++ t :: post).filter p = (pre ++ post).filter p := by
  simp [List.filter_append, List.filter_cons, h]

theorem fileWritten_eq_false {env : Env} {flags : Flags} {t : String}
    (h : hasColumns env t = false) : fileWritten env flags t = false := by
  simp [fileWritten, h]

/-- C4: a table whose column listing fails, or succeeds with no column, is
skipped and does not stop the run: the run returns normally after asking for
the columns of every table; the iteration of that table does nothing but the
column listing (no `generateStruct` call, no write, no change of `allStructs`
or `generatedFiles`); and `allStructs`, the writes with their results and
`generatedFiles` are those of the same run on the table list without it. -/
theorem failed_table_is_skipped (env : Env) (flags : Flags) (pre post : List String)
    (t : String) (absOutputDir : String)
    (hstart : Started env flags (pre ++ t :: post) absOutputDir)
    (hskip : (∃ e, env.getTableColumns t = .error e) ∨ env.getTableColumns t = .ok []) :
    (main env flags).exitCode = 0
    ∧ columnCallsOf (main env flags).trace = pre ++ t :: post
    ∧ t ∉ structCallsOf (main env flags).trace
    ∧ (∀ st : LoopState, mainLoopBody env flags st t
        = { st with trace := st.trace ++ [Event.getTableColumns t] })
    ∧ (main env flags).allStructs
        = (main { env with scans := (pre ++ post).map Except.ok } flags).allStructs
    ∧ writeEventsOf (main env flags).trace
        = writeEventsOf
            (main { env with scans := (pre ++ post).map Except.ok } flags).trace
    ∧ (main env flags).generatedFiles
        = (main { env with scans := (pre ++ post).map Except.ok } flags).generatedFiles := by
  have hno : hasColumns env t = false := hasColumns_eq_false hskip
  have hstart2 := hstart.with_scans (pre ++ post)
  have hstructs : structsOf env (pre ++ t :: post) = structsOf env (pre ++ post) := by
    unfold structsOf; rw [filter_skip _ _ _ _ hno]
  refine ⟨main_exitCode env flags _ absOutputDir hstart,
    main_columnCalls env flags _ absOutputDir hstart, ?_, ?_, ?_, ?_, ?_⟩
  · rw [main_structCalls env flags _ absOutputDir hstart]
    intro hmem
    have := (List.mem_filter.mp hmem).2
    rw [hno] at this
    exact Bool.false_ne_true this
  · intro st
    rw [mainLoopBody_append, mainLoopBody_empty]
    simp [hno, LoopState.append]
  · rw [main_allStructs env flags _ absOutputDir hstart,
      main_allStructs _ flags _ absOutputDir hstart2]
    exact hstructs
  · rw [main_writeEvents env flags _ absOutputDir hstart,
      main_writeEvents _ flags _ absOutputDir hstart2]
    have h1 : tableWrites env flags (pre ++ t :: post)
        = tableWrites { env with scans := (pre ++ post).map Except.ok } flags
            (pre ++ post) := by
      unfold tableWrites
      rw [filter_skip _ _ _ _ hno]; rfl
    have h2 : combinedWrites env flags (pre ++ t :: post)
        = combinedWrites { env with scans := (pre ++ post).map Except.ok } flags
            (pre ++ post) := by
      unfold combinedWrites combinedContentOf
      rw [hstructs]; rfl
    rw [h1, h2]
  · rw [main_generatedFiles env flags _ absOutputDir hstart,
      main_generatedFiles _ flags _ absOutputDir hstart2]
    have h1 : (pre ++ t :: post).filter (fileWritten env flags)
        = (pre ++ post).filter (fileWritten env flags) :=
      filter_skip _ _ _ _ (fileWritten_eq_false hno)
    have h2 : combinedWritten env flags (pre ++ t :: post)
        = combinedWritten env flags (pre ++ post) := by
      unfold combinedWritten combinedContentOf
      rw [hstructs]
    rw [h1, h2]; rfl

/-- C4, at the tables `posts` and `users` in mode `both`, where the listing of
`posts` fails: the files of `users` are written and `posts` leaves nothing. -/
theorem failed_table_is_skipped_witness :
    (main (demoEnv ["posts", "users"] ["posts"] []) (demoFlags "./models" "both")).exitCode
      = 0
    ∧ writeEventsOf
        (main (demoEnv ["posts", "users"] ["posts"] [])
          (demoFlags "./models" "both")).trace
      = [Event.writeToFile "models/users.go" "package models; type users struct" none,
         Event.writeToFile "models/models.go" "package models; type users struct" none]
    ∧ (main (demoEnv ["posts", "users"] ["posts"] [])
          (demoFlags "./models" "both")).generatedFiles
      = ["users.go", "models.go"] :=
  have h := failed_table_is_skipped (demoEnv ["posts", "users"] ["posts"] [])
    (demoFlags "./models" "both") [] ["users"] "posts" "/work/models"
    ⟨rfl, by decide, rfl, rfl, rfl, rfl, rfl⟩ (Or.inl ⟨_, rfl⟩)
  ⟨h.1, h.2.2.2.2.2.1.trans (by decide), h.2.2.2.2.2.2.trans (by decide)⟩

/-- C5 as stated fails: with the tables `posts` and `users`, the run in which
the column listing of `posts` fails and the run in which every listing
succeeds end with the same exit status. -/
theorem exit_status_ignores_failed_listing :
    Started (demoEnv ["posts", "users"] ["posts"] []) (demoFlags "./models" "both")
        ["posts", "users"] "/work/models"
    ∧ (demoEnv ["posts", "users"] ["posts"] []).getTableColumns "posts"
        = .error "relation does not exist"
    ∧ (∀ t ∈ ["posts", "users"],
        (demoEnv ["posts", "users"] [] []).getTableColumns t = .ok [idColumn])
    ∧ ¬ ((main (demoEnv ["posts", "users"] ["posts"] [])
            (demoFlags "./models" "both")).exitCode
          ≠ (main (demoEnv ["posts", "users"] [] [])
            (demoFlags "./models" "both")).exitCode) :=
  ⟨⟨rfl, by decide, rfl, rfl, rfl, rfl, rfl⟩, rfl, fun _ _ => rfl, by decide⟩

/-- C5, amended: once the table list is read and the output directory made,
the run returns normally, with exit status 0, whatever the column listings
do: replacing the column listing by any other leaves the exit status at 0. -/
theorem exit_status_zero (env : Env) (flags : Flags) (tables : List String)
    (absOutputDir : String) (hstart : Started env flags tables absOutputDir)
    (listing : String → Except String (List ColumnInfo)) :
    (main env flags).exitCode = 0
    ∧ (main { env with getTableColumns := listing } flags).exitCode = 0 :=
  ⟨main_exitCode env flags tables absOutputDir hstart,
    main_exitCode { env with getTableColumns := listing } flags tables absOutputDir
      hstart⟩

/-- C5 amended, at the tables `posts` and `users` where the listing of `posts`
fails: exit status 0, as when every listing fails. -/
theorem exit_status_zero_witness :
    (main (demoEnv ["posts", "users"] ["posts"] []) (demoFlags "./models" "both")).exitCode
      = 0
    ∧ (main { demoEnv ["posts", "users"] ["posts"] [] with
              getTableColumns := fun _ => .error "connection lost" }
          (demoFlags "./models" "both")).exitCode = 0 :=
  exit_status_zero (demoEnv ["posts", "users"] ["posts"] [])
    (demoFlags "./models" "both") ["posts", "users"] "/work/models"
    ⟨rfl, by decide, rfl, rfl, rfl, rfl, rfl⟩ (fun _ => .error "connection lost")

theorem main_summary (env : Env) (flags : Flags) (tables : List String)
    (absOutputDir : String) (h : Started env flags tables absOutputDir)
    (s : Summary) (hs : (main env flags).summary = some s) :
    s.files = (main env flags).generatedFiles
    ∧ s.structCount = (main env flags).allStructs.length
    ∧ s.outputDirectory = absOutputDir := by
  obtain ⟨hhelp, hdb, hpool, hping, hread, habs, hmk⟩ := h
  by_cases hts : tables.length = 0
  · simp [main, hhelp, hdb, hpool, hping, hread, mainGenerate, hts, Outcome.early] at hs
  · simp only [main, hhelp, hdb, hpool, hping, hread, mainGenerate, hts, habs, hmk] at hs ⊢
    simp only [Bool.false_eq_true, false_or, if_false, Option.some.injEq] at hs ⊢
    subst hs
    refine ⟨?_, rfl, rfl⟩
    split
    · rfl
    · rename_i hlen
      simp only [gt_iff_lt, List.length_pos, ne_eq, not_not] at hlen
      simp [hlen]

/-- A started run with at least one table prints the summary. -/
theorem main_summary_some (env : Env) (flags : Flags) (tables : List String)
    (absOutputDir : String) (h : Started env flags tables absOutputDir)
    (hts : tables ≠ []) :
    ∃ s, (main env flags).summary = some s
      ∧ s.files = (main env flags).generatedFiles
      ∧ s.structCount = (main env flags).allStructs.length
      ∧ s.outputDirectory = absOutputDir
      ∧ s.outputMode = flags.outputMode := by
  have hlen : ¬ tables.length = 0 := fun h0 => hts (List.length_eq_zero.mp h0)
  have hsome : ∃ s, (main env flags).summary = some s
      ∧ s.outputMode = flags.outputMode := by
    obtain ⟨hhelp, hdb, hpool, hping, hread, habs, hmk⟩ := h
    simp [main, hhelp, hdb, hpool, hping, hread, mainGenerate, hlen, habs, hmk]
  obtain ⟨s, hs, hm⟩ := hsome
  obtain ⟨h1, h2, h3⟩ := main_summary env flags tables absOutputDir h s hs
  exact ⟨s, hs, h1, h2, h3, hm⟩

/-- C6: a failed per-table write does not stop the run and changes no other
write.  In mode `separate` or `both`, when the write of the file of table `t`
fails: the run returns normally after asking for the columns of every table;
the failed write was made; the writes of the run have the same paths and
contents, in the same order, as in the run where that write succeeds; every write other than that of `t` has the same
result in both runs; in mode `both` the combined file is still written to
`models.go` with the structs of all tables with columns, that of `t`
included.  And whatever any write returns, that of `models.go` included, the
run returns normally. -/
theorem write_failure_is_confined (env : Env) (flags : Flags) (tables : List String)
    (absOutputDir : String) (t e : String)
    (hstart : Started env flags tables absOutputDir)
    (hmode : flags.outputMode = "separate" ∨ flags.outputMode = "both")
    (ht : t ∈ tables)
    (hcols : ∃ columns, env.getTableColumns t = .ok columns ∧ 0 < columns.length)
    (hfail : env.writeToFile (filePathOf env flags t) (fileContentOf env flags t)
      = some e) :
    (main env flags).exitCode = 0
    ∧ columnCallsOf (main env flags).trace = tables
    ∧ Event.writeToFile (filePathOf env flags t) (fileContentOf env flags t) (some e)
        ∈ writeEventsOf (main env flags).trace
    ∧ writesOf (main env flags).trace
        = writesOf (main (writeSucceedsFor env flags t) flags).trace
    ∧ writeEventsOf (main (writeSucceedsFor env flags t) flags).trace
        = (writeEventsOf (main env flags).trace).map (fun ev =>
            if ev = Event.writeToFile (filePathOf env flags t)
                (fileContentOf env flags t) (some e)
            then Event.writeToFile (filePathOf env flags t)
                (fileContentOf env flags t) none
            else ev)
    ∧ (flags.outputMode = "both" →
        (filepathJoin [flags.outputDir, "models.go"],
          env.generateCombinedFile flags.packageName
            ((tables.filter (hasColumns env)).map (structOf env)))
          ∈ writesOf (main env flags).trace
        ∧ structOf env t ∈ (tables.filter (hasColumns env)).map (structOf env))
    ∧ (∀ w : String → String → Option String,
        (main { env with writeToFile := w } flags).exitCode = 0) := by
  obtain ⟨columns, hc, hlen⟩ := hcols
  have hhas : hasColumns env t = true := hasColumns_of_ok hc hlen
  have hmem : structOf env t ∈ (tables.filter (hasColumns env)).map (structOf env) :=
    List.mem_map.mpr ⟨t, List.mem_filter.mpr ⟨ht, hhas⟩, rfl⟩
  refine ⟨main_exitCode env flags tables absOutputDir hstart,
    main_columnCalls env flags tables absOutputDir hstart, ?_, ?_, ?_, ?_, ?_⟩
  · rw [main_writeEvents env flags tables absOutputDir hstart, List.map_append]
    apply List.mem_append_left
    have hpm : perTableMode flags = true := by simpa [perTableMode] using hmode
    unfold tableWrites
    rw [if_pos hpm, List.map_map]
    exact List.mem_map.mpr ⟨t, List.mem_filter.mpr ⟨ht, hhas⟩, by simp [hfail]⟩
  · rw [main_writes env flags tables absOutputDir hstart,
      main_writes (writeSucceedsFor env flags t) flags tables absOutputDir hstart]
    rfl
  · rw [main_writeEvents env flags tables absOutputDir hstart,
      main_writeEvents (writeSucceedsFor env flags t) flags tables absOutputDir hstart,
      List.map_map]
    have hsame : tableWrites (writeSucceedsFor env flags t) flags tables
          ++ combinedWrites (writeSucceedsFor env flags t) flags tables
        = tableWrites env flags tables ++ combinedWrites env flags tables := rfl
    rw [hsame]
    apply List.map_congr_left
    intro pc _
    by_cases hpc : pc.1 = filePathOf env flags t ∧ pc.2 = fileContentOf env flags t
    · simp [writeSucceedsFor, hpc.1, hpc.2, hfail]
    · have hne : ¬ (pc.1 = filePathOf env flags t ∧ pc.2 = fileContentOf env flags t
          ∧ env.writeToFile pc.1 pc.2 = some e) := fun h => hpc ⟨h.1, h.2.1⟩
      simp [writeSucceedsFor, hpc, hne]
  · intro hboth
    refine ⟨?_, hmem⟩
    rw [main_writes env flags tables absOutputDir hstart]
    apply List.mem_append_right
    have hne : structsOf env tables ≠ [] := List.ne_nil_of_mem hmem
    have hcm : combinedMode flags = true := by simp [combinedMode, hboth]
    unfold combinedWrites
    rw [if_pos ⟨hcm, hne⟩]
    simp [combinedPath, combinedContentOf, structsOf]
  · intro w
    exact main_exitCode _ flags tables absOutputDir (hstart.with_writeToFile w)

/-- C6, at the tables `posts` and `users` in mode `both`, where `users.go`
cannot be written: the three writes are attempted all the same and the run
returns normally. -/
theorem write_failure_is_confined_witness :
    (main (demoEnv ["posts", "users"] [] ["models/users.go"])
        (demoFlags "./models" "both")).exitCode = 0
    ∧ writesOf (main (demoEnv ["posts", "users"] [] ["models/users.go"])
        (demoFlags "./models" "both")).trace
      = [("models/posts.go", "package models; type posts struct"),
         ("models/users.go", "package models; type users struct"),
         ("models/models.go",
          "package models; type posts struct; type users struct")] :=
  have h := write_failure_is_confined
    (demoEnv ["posts", "users"] [] ["models/users.go"]) (demoFlags "./models" "both")
    ["posts", "users"] "/work/models" "users" "permission denied"
    ⟨rfl, by decide, rfl, rfl, rfl, rfl, rfl⟩ (Or.inr rfl) (by decide)
    ⟨[idColumn], rfl, by decide⟩ (by decide)
  ⟨h.1, h.2.2.2.1.trans (by decide)⟩

/-- C7: the files listed by the summary are the files written without error:
`generatedFiles` holds `strings.ToLower(tableName) + ".go"` for every table
whose per-table write was made and returned no error, in table order, followed
by `models.go` when the combined write was made and returned no error; the
paths of the `writeToFile` calls that returned no error are, in order,
`filepath.Join(outputDir, name)` for the names of `generatedFiles`; a summary
that is printed lists `generatedFiles`; and with at least one table the
summary is printed, with `generatedFiles` as its list of files. -/
theorem summary_lists_written_files (env : Env) (flags : Flags) (tables : List String)
    (absOutputDir : String) (hstart : Started env flags tables absOutputDir) :
    (main env flags).generatedFiles
      = (tables.filter (fileWritten env flags)).map (fun t => env.ToLower t ++ ".go")
        ++ (if combinedWritten env flags tables then ["models.go"] else [])
    ∧ writtenOf (main env flags).trace
      = (main env flags).generatedFiles.map (fun name =>
          filepathJoin [flags.outputDir, name])
    ∧ (∀ s, (main env flags).summary = some s →
        s.files = (main env flags).generatedFiles)
    ∧ (tables ≠ [] →
        ∃ s, (main env flags).summary = some s
          ∧ s.files = (main env flags).generatedFiles) := by
  refine ⟨main_generatedFiles env flags tables absOutputDir hstart, ?_, ?_, ?_⟩
  · rw [main_written env flags tables absOutputDir hstart,
      main_generatedFiles env flags tables absOutputDir hstart, List.map_append,
      List.map_map]
    congr 1
    split <;> simp [combinedPath]
  · intro s hs
    exact (main_summary env flags tables absOutputDir hstart s hs).1
  · intro hts
    obtain ⟨s, hs, hf, _⟩ := main_summary_some env flags tables absOutputDir hstart hts
    exact ⟨s, hs, hf⟩

/-- C7, at the tables `posts` and `users` in mode `both`, where `users.go`
cannot be written: the summary is printed and lists `posts.go` and
`models.go`, the two files written. -/
theorem summary_lists_written_files_witness :
    (main (demoEnv ["posts", "users"] [] ["models/users.go"])
        (demoFlags "./models" "both")).generatedFiles = ["posts.go", "models.go"]
    ∧ writtenOf (main (demoEnv ["posts", "users"] [] ["models/users.go"])
        (demoFlags "./models" "both")).trace = ["models/posts.go", "models/models.go"]
    ∧ (∃ s, (main (demoEnv ["posts", "users"] [] ["models/users.go"])
          (demoFlags "./models" "both")).summary = some s
        ∧ s.files = ["posts.go", "models.go"]) :=
  have h := summary_lists_written_files
    (demoEnv ["posts", "users"] [] ["models/users.go"]) (demoFlags "./models" "both")
    ["posts", "users"] "/work/models" ⟨rfl, by decide, rfl, rfl, rfl, rfl, rfl⟩
  ⟨h.1.trans (by decide), h.2.1.trans (by decide),
    (h.2.2.2 (by decide)).imp fun _ hs => ⟨hs.1, hs.2.trans (h.1.trans (by decide))⟩⟩

/-- C9 as stated fails: with `-mode Both` and the table `users`, every write
succeeds and the summary reports one generated struct, yet `writeToFile` is
never called. -/
theorem unknown_mode_writes_nothing :
    Started (demoEnv ["users"] [] []) (demoFlags "./models" "Both") ["users"]
        "/work/models"
    ∧ (∀ filePath content,
        (demoEnv ["users"] [] []).writeToFile filePath content = none)
    ∧ (main (demoEnv ["users"] [] []) (demoFlags "./models" "Both")).allStructs
        = ["type users struct"]
    ∧ ((main (demoEnv ["users"] [] []) (demoFlags "./models" "Both")).summary.map
        fun s => s.structCount) = some 1
    ∧ writesOf (main (demoEnv ["users"] [] []) (demoFlags "./models" "Both")).trace
        = [] :=
  ⟨⟨rfl, by decide, rfl, rfl, rfl, rfl, rfl⟩, fun _ _ => rfl, by decide, by decide,
    by decide⟩

/-- C9, amended: when the mode is exactly `combined`, `separate` or `both`, a
run that ends with a non-empty `allStructs` has called `writeToFile` at least
once (whether or not the writes succeed); for every other value of the mode
flag the run calls `writeToFile` not at all; and in every mode a run with at
least one table prints the summary, which reports `len(allStructs)` structs
and the mode as given. -/
theorem known_mode_writes_something (env : Env) (flags : Flags) (tables : List String)
    (absOutputDir : String) (hstart : Started env flags tables absOutputDir) :
    ((flags.outputMode = "combined" ∨ flags.outputMode = "separate"
          ∨ flags.outputMode = "both") →
        (main env flags).allStructs ≠ [] → writesOf (main env flags).trace ≠ [])
    ∧ (¬ (flags.outputMode = "combined" ∨ flags.outputMode = "separate"
          ∨ flags.outputMode = "both") →
        writesOf (main env flags).trace = [])
    ∧ (tables ≠ [] →
        ∃ s, (main env flags).summary = some s
          ∧ s.structCount = (main env flags).allStructs.length
          ∧ s.outputMode = flags.outputMode) := by
  refine ⟨?_, ?_, ?_⟩
  · rw [main_writes env flags tables absOutputDir hstart,
      main_allStructs env flags tables absOutputDir hstart]
    intro hmode hne
    by_cases hc : combinedMode flags = true
    · unfold combinedWrites
      rw [if_pos ⟨hc, hne⟩]
      simp
    · have hsep : flags.outputMode = "separate" := by
        rcases hmode with h | h | h
        · exact absurd (by simp [combinedMode, h]) hc
        · exact h
        · exact absurd (by simp [combinedMode, h]) hc
      have hfilter : tables.filter (hasColumns env) ≠ [] := by
        intro h; apply hne; simp [structsOf, h]
      simp [tableWrites, perTableMode, hsep, hfilter]
  · rw [main_writes env flags tables absOutputDir hstart]
    intro hmode
    have h1 : perTableMode flags = false := by
      simp only [perTableMode, decide_eq_false_iff_not]
      rintro (h | h)
      · exact hmode (Or.inr (Or.inl h))
      · exact hmode (Or.inr (Or.inr h))
    have h2 : combinedMode flags = false := by
      simp only [combinedMode, decide_eq_false_iff_not]
      rintro (h | h)
      · exact hmode (Or.inl h)
      · exact hmode (Or.inr (Or.inr h))
    simp [tableWrites, combinedWrites, h1, h2]
  · intro hts
    obtain ⟨s, hs, _, hc, _, hm⟩ :=
      main_summary_some env flags tables absOutputDir hstart hts
    exact ⟨s, hs, hc, hm⟩

/-- C9 amended, at the table `users`: one write in mode `separate`; no write
in mode `Both`, where the summary still reports one struct. -/
theorem known_mode_writes_something_witness :
    writesOf (main (demoEnv ["users"] [] []) (demoFlags "./models" "separate")).trace
      ≠ []
    ∧ writesOf (main (demoEnv ["users"] [] []) (demoFlags "./models" "Both")).trace
      = []
    ∧ (∃ s, (main (demoEnv ["users"] [] []) (demoFlags "./models" "Both")).summary
          = some s
        ∧ s.structCount = 1 ∧ s.outputMode = "Both") :=
  have hsep := known_mode_writes_something (demoEnv ["users"] [] [])
    (demoFlags "./models" "separate") ["users"] "/work/models"
    ⟨rfl, by decide, rfl, rfl, rfl, rfl, rfl⟩
  have hBoth := known_mode_writes_something (demoEnv ["users"] [] [])
    (demoFlags "./models" "Both") ["users"] "/work/models"
    ⟨rfl, by decide, rfl, rfl, rfl, rfl, rfl⟩
  ⟨hsep.1 (Or.inr (Or.inl rfl)) (by decide), hBoth.2.1 (by decide),
    (hBoth.2.2 (by decide)).imp fun _ hs => ⟨hs.1, hs.2.1.trans (by decide), hs.2.2⟩⟩

theorem isFileName_go (x : String) (hx : '/' ∉ x.data) :
    IsFileName (x ++ ".go").data := by
  have hdata : (x ++ ".go").data = x.data ++ ['.', 'g', 'o'] := by
    rw [String.data_append]
  have hlen : (x ++ ".go").data.length = x.data.length + 3 := by
    rw [hdata, List.length_append]; rfl
  refine ⟨?_, ?_, ?_, ?_⟩
  · rw [hdata, List.mem_append]
    rintro (h | h)
    · exact hx h
    · revert h; decide
  · intro h; rw [h] at hlen; simp at hlen
  · intro h; rw [h] at hlen; simp at hlen
  · intro h; rw [h] at hlen; simp at hlen

/-- The path of the file named `x.go` in a directory determines `x`, for names
without a separator. -/
theorem filepathJoin_go_inj (d x y : String) (hx : '/' ∉ x.data) (hy : '/' ∉ y.data)
    (h : filepathJoin [d, x ++ ".go"] = filepathJoin [d, y ++ ".go"]) : x = y := by
  obtain ⟨dir, hdir⟩ := filepathJoin_fileName d
  rw [hdir _ (isFileName_go x hx), hdir _ (isFileName_go y hy)] at h
  have h1 : dir ++ (x ++ ".go").data = dir ++ (y ++ ".go").data :=
    congrArg String.data h
  have h2 := List.append_cancel_left h1
  rw [String.data_append, String.data_append] at h2
  exact String.ext (List.append_cancel_right h2)

/-- C8 fails at the tables `Users` and `users`: the names are distinct, yet in
mode `separate` and in mode `both` the two per-table files are written to the
same path `models/users.go`, the second over the first, and the summary lists
`users.go` twice. -/
theorem distinct_tables_same_path :
    Started (demoEnv ["Users", "users"] [] []) (demoFlags "./models" "both")
        ["Users", "users"] "/work/models"
    ∧ ["Users", "users"].Nodup
    ∧ (writesOf (main (demoEnv ["Users", "users"] [] [])
          (demoFlags "./models" "both")).trace).map Prod.fst
        = ["models/users.go", "models/users.go", "models/models.go"]
    ∧ ¬ ((writesOf (main (demoEnv ["Users", "users"] [] [])
          (demoFlags "./models" "both")).trace).map Prod.fst).Nodup
    ∧ writesOf (main (demoEnv ["Users", "users"] [] [])
          (demoFlags "./models" "separate")).trace
        = [("models/users.go", "package models; type Users struct"),
           ("models/users.go", "package models; type users struct")]
    ∧ ¬ ((writesOf (main (demoEnv ["Users", "users"] [] [])
          (demoFlags "./models" "separate")).trace).map Prod.fst).Nodup
    ∧ (main (demoEnv ["Users", "users"] [] [])
          (demoFlags "./models" "separate")).generatedFiles
        = ["users.go", "users.go"] :=
  ⟨⟨rfl, by decide, rfl, rfl, rfl, rfl, rfl⟩, by decide, by decide, by decide,
    by decide, by decide, by decide⟩

/-- A table named `models` in mode `both`: its file and the combined file are
written to the same path, the second over the first. -/
theorem models_table_same_path :
    writesOf (main (demoEnv ["models"] [] []) (demoFlags "./models" "both")).trace
      = [("models/models.go", "package models; type models struct"),
         ("models/models.go", "package models; type models struct")] := by
  decide

/-- Table names with a path separator: `a/../b` and `b` are distinct, also
lower-cased, yet in mode `separate` both files are written to `models/b.go`. -/
theorem separator_tables_same_path :
    (["a/../b", "b"].map asciiToLower).Nodup
    ∧ (writesOf (main (demoEnv ["a/../b", "b"] [] [])
          (demoFlags "./models" "separate")).trace).map Prod.fst
        = ["models/b.go", "models/b.go"] :=
  ⟨by decide, by decide⟩

/-- Where the paths of a run are pairwise distinct: when the lower-cased table
names are pairwise distinct and contain no path separator and, in mode `both`,
none of them is `models`. -/
theorem distinct_lowercased_names_distinct_paths (env : Env) (flags : Flags)
    (tables : List String) (absOutputDir : String)
    (hstart : Started env flags tables absOutputDir)
    (hlower : (tables.map env.ToLower).Nodup)
    (hsep : ∀ t ∈ tables, '/' ∉ (env.ToLower t).data)
    (hmodels : flags.outputMode = "both" → ∀ t ∈ tables, env.ToLower t ≠ "models") :
    ((writesOf (main env flags).trace).map Prod.fst).Nodup := by
  have htables : (tables.map (filePathOf env flags)).Nodup := by
    have h := List.Nodup.map_on (f := fun x => filepathJoin [flags.outputDir, x ++ ".go"])
      (fun x hx y hy hxy => by
        obtain ⟨t, ht, rfl⟩ := List.mem_map.mp hx
        obtain ⟨u, hu, rfl⟩ := List.mem_map.mp hy
        exact filepathJoin_go_inj flags.outputDir _ _ (hsep t ht) (hsep u hu) hxy)
      hlower
    rw [List.map_map] at h
    exact h
  have hperTable : ((tableWrites env flags tables).map Prod.fst).Sublist
      (tables.map (filePathOf env flags)) := by
    unfold tableWrites
    split
    · rw [List.map_map]
      exact (List.filter_sublist _).map _
    · exact List.nil_sublist _
  have hcombined : ((combinedWrites env flags tables).map Prod.fst).Sublist
      [combinedPath flags] := by
    unfold combinedWrites
    split
    · exact List.Sublist.refl _
    · exact List.nil_sublist _
  rw [main_writes env flags tables absOutputDir hstart, List.map_append]
  by_cases hboth : flags.outputMode = "both"
  · have hnot : combinedPath flags ∉ tables.map (filePathOf env flags) := by
      intro hmem
      obtain ⟨t, ht, hpath⟩ := List.mem_map.mp hmem
      have hx : env.ToLower t = "models" :=
        filepathJoin_go_inj flags.outputDir _ _ (hsep t ht) (by decide) hpath
      exact hmodels hboth t ht hx
    have hall : (tables.map (filePathOf env flags) ++ [combinedPath flags]).Nodup := by
      refine List.Nodup.append htables (List.nodup_singleton _) ?_
      intro x hx hx2
      rw [List.mem_singleton.mp hx2] at hx
      exact hnot hx
    exact List.Nodup.sublist (List.Sublist.append hperTable hcombined) hall
  · by_cases hsepMode : flags.outputMode = "separate"
    · have hnone : combinedWrites env flags tables = [] := by
        simp [combinedWrites, combinedMode, hsepMode]
      rw [hnone, List.map_nil, List.append_nil]
      exact List.Nodup.sublist hperTable htables
    · have hnone : tableWrites env flags tables = [] := by
        simp [tableWrites, perTableMode, hsepMode, hboth]
      rw [hnone, List.map_nil, List.nil_append]
      exact List.Nodup.sublist hcombined (List.nodup_singleton _)

/-- At the tables `models` and `users` in mode `separate`: two distinct
paths. -/
theorem distinct_lowercased_names_distinct_paths_example :
    ((writesOf (main (demoEnv ["models", "users"] [] [])
        (demoFlags "./models" "separate")).trace).map Prod.fst).Nodup :=
  distinct_lowercased_names_distinct_paths (demoEnv ["models", "users"] [] [])
    (demoFlags "./models" "separate") ["models", "users"] "/work/models"
    ⟨rfl, by decide, rfl, rfl, rfl, rfl, rfl⟩ (by decide) (by decide)
    (fun h => absurd h (by decide))

/-- C10 fails at `-output ""`: with the working directory `/work` and the table
`users` in mode `separate`, the directory made with `MkdirAll` and printed by
the summary is `/work/models`, while the file is written to the path
`users.go`, which is `/work/users.go`, outside that directory.  With
`-output ./models` the file goes to `models/users.go`, inside it. -/
theorem empty_output_flag_misses_directory :
    (main (demoEnv ["users"] [] []) (demoFlags "" "separate")).trace
      = [Event.mkdirAll "/work/models",
         Event.getTableColumns "users",
         Event.generateStruct "users" [idColumn],
         Event.writeToFile "users.go" "package models; type users struct" none]
    ∧ ((main (demoEnv ["users"] [] []) (demoFlags "" "separate")).summary.map
        fun s => s.outputDirectory) = some "/work/models"
    ∧ filepathAbs (.ok "/work") "users.go" = .ok "/work/users.go"
    ∧ writesOf (main (demoEnv ["users"] [] []) (demoFlags "./models" "separate")).trace
      = [("models/users.go", "package models; type users struct")]
    ∧ filepathAbs (.ok "/work") "models/users.go" = .ok "/work/models/users.go" :=
  ⟨by decide, by decide, rfl, by decide, rfl⟩

end SqlToGo
